import Mathlib

/-!
Verification of the gamification engine of the Birthday-Sadie-API repository:
score records with a derived level, badge eligibility and awarding, trivia
answer validation and scoring, ranks and leaderboards.

The Django models and view methods are shallowly embedded as pure Lean
functions over explicit list-valued states.  Database tables become lists of
records, `save()` becomes a keyed functional update, HTTP error responses
become an `ApiError` sum, and Python integer arithmetic becomes `Int`
arithmetic (Python's floor division `//` is `Int.fdiv`).  Timestamps,
authentication and permission checks, and serializer fields that merely copy
related display data are orthogonal to the verified properties and are not
modelled.
-/

/-- Database row of `birthdayapi.models.game_score.GameScore`: primary key,
user id, party id, `total_points` and `level` (timestamps omitted). -/
structure GameScore where
  id : Nat
  user : Nat
  party : Nat
  total_points : Int
  level : Int
deriving DecidableEq

/-- Embeds `GameScore.calculate_level` from `models/game_score.py`:
`(self.total_points // 100) + 1` with Python floor division. -/
def calculate_level (total_points : Int) : Int :=
  total_points.fdiv 100 + 1

/-- Embeds `self.get_object()` of the score viewsets: look a score up by its
primary key. -/
def findScore (scores : List GameScore) (pk : Nat) : Option GameScore :=
  scores.find? (fun s => decide (s.id = pk))

/-- Embeds `GameScore.objects.filter(user=..., party=...).first()`: the scores
table has a unique-together constraint on (user, party). -/
def findUserPartyScore (scores : List GameScore) (user party : Nat) : Option GameScore :=
  scores.find? (fun s => decide (s.user = user ∧ s.party = party))

/-- Embeds `score.save()` for a score located by primary key: rewrite the row
with that key, leave every other row unchanged. -/
def updateScore (scores : List GameScore) (pk : Nat) (f : GameScore → GameScore) :
    List GameScore :=
  scores.map (fun s => if s.id = pk then f s else s)

/-- Embeds `score.save()` for the unique row keyed by (user, party). -/
def updateUserPartyScore (scores : List GameScore) (user party : Nat)
    (f : GameScore → GameScore) : List GameScore :=
  scores.map (fun s => if s.user = user ∧ s.party = party then f s else s)

/-- Error responses of the view methods: 404 from `get_object_or_404` /
`DoesNotExist`, and 400 validation errors. -/
inductive ApiError where
  | notFound
  | badRequest
deriving DecidableEq

/-- Database row of `birthdayapi.models.badges.Badge`: primary key,
`points_required` threshold and `is_active` flag (display fields omitted). -/
structure Badge where
  id : Nat
  points_required : Int
  is_active : Bool
deriving DecidableEq

/-- Database row of `birthdayapi.models.badges.UserBadge`: the
(user, badge, party) triple, unique together (`earned_at` omitted). -/
structure UserBadge where
  user : Nat
  badge : Nat
  party : Nat
deriving DecidableEq

/-- Embeds `UserBadge.objects.filter(user=..., party=...).values_list('badge_id')`
as used by `auto_award` and `available_for_user` in `views/badges.py`. -/
def earnedBadgeIds (awards : List UserBadge) (user party : Nat) : List Nat :=
  (awards.filter (fun a => decide (a.user = user ∧ a.party = party))).map (fun a => a.badge)

/-- Embeds the `Badge.objects.filter(is_active=True,
points_required__lte=points).exclude(id__in=earned_badge_ids)` query of
`views/badges.py` (`auto_award`, `available_for_user`). -/
def availableBadges (badges : List Badge) (awards : List UserBadge)
    (user party : Nat) (points : Int) : List Badge :=
  badges.filter (fun b =>
    b.is_active && decide (b.points_required ≤ points)
      && !(decide (b.id ∈ earnedBadgeIds awards user party)))

/-- Embeds `UserBadgeViewSet.auto_award` from `views/badges.py` lines 314-368:
a missing score row is a 400 error; otherwise every active badge whose
threshold is at most the stored total and that is not already earned for
(user, party) is awarded.  Returns the new awards table and the list of newly
created awards. -/
def auto_award (badges : List Badge) (awards : List UserBadge)
    (scores : List GameScore) (user party : Nat) :
    Except ApiError (List UserBadge × List UserBadge) :=
  match findUserPartyScore scores user party with
  | none => .error .badRequest
  | some s =>
    let newAwards := (availableBadges badges awards user party s.total_points).map
      (fun b => { user := user, badge := b.id, party := party })
    .ok (awards ++ newAwards, newAwards)

/-- Embeds one `UserBadge.objects.get_or_create(user, badge, party)` step of
`_check_and_award_badges`: insert the (user, badge, party) triple when it is
absent from the awards table, keep the table unchanged when it is present. -/
def awardStep (score : GameScore) (acc : List UserBadge) (b : Badge) : List UserBadge :=
  if acc.any (fun a => decide (a.user = score.user ∧ a.badge = b.id ∧ a.party = score.party))
  then acc
  else acc ++ [{ user := score.user, badge := b.id, party := score.party }]

/-- Embeds `GameScoreViewSet._check_and_award_badges` from `views/game.py`
lines 175-187: for each active badge whose threshold is at most the score's
total, `get_or_create` the (user, badge, party) award. -/
def check_and_award_badges (badges : List Badge) (awards : List UserBadge)
    (score : GameScore) : List UserBadge :=
  (badges.filter (fun b =>
      b.is_active && decide (b.points_required ≤ score.total_points))).foldl
    (awardStep score) awards

/-- Embeds `BadgeViewSet.available_for_user` from `views/badges.py` lines
97-149: a missing score row is read as 0 points; returns the point total, the
available badges (threshold at most the total, not yet earned) and the
upcoming badges (threshold within the next 50 points, not yet earned). -/
def available_for_user (badges : List Badge) (awards : List UserBadge)
    (scores : List GameScore) (user party : Nat) :
    Int × List Badge × List Badge :=
  let user_points :=
    match findUserPartyScore scores user party with
    | none => 0
    | some s => s.total_points
  let available := availableBadges badges awards user party user_points
  let upcoming := badges.filter (fun b =>
    b.is_active && decide (user_points < b.points_required)
      && decide (b.points_required ≤ user_points + 50)
      && !(decide (b.id ∈ earnedBadgeIds awards user party)))
  (user_points, available, upcoming)

/-- Embeds `GameScoreViewSet.add_points` from `views/game_score.py` lines
160-197: look the score up by primary key (404 when absent), reject a
non-positive amount with a validation error, otherwise add the amount to the
total, recompute the level and save both.  Returns the new scores table and
the updated total and level. -/
def add_points (scores : List GameScore) (pk : Nat) (points : Int) :
    Except ApiError (List GameScore × Int × Int) :=
  match findScore scores pk with
  | none => .error .notFound
  | some score =>
    if points ≤ 0 then .error .badRequest
    else
      let total := score.total_points + points
      let level := calculate_level total
      .ok (updateScore scores pk
            (fun s => { s with total_points := total, level := level }),
          total, level)

/-- Embeds `GameScoreViewSet.add_points` from `views/game.py` lines 227-253:
same arithmetic as the routed viewset's action, followed by
`_check_and_award_badges` on the saved score. -/
def game_add_points (badges : List Badge) (awards : List UserBadge)
    (scores : List GameScore) (pk : Nat) (points : Int) :
    Except ApiError (List GameScore × List UserBadge × Int × Int) :=
  match findScore scores pk with
  | none => .error .notFound
  | some score =>
    if points ≤ 0 then .error .badRequest
    else
      let total := score.total_points + points
      let level := calculate_level total
      let saved := { score with total_points := total, level := level }
      .ok (updateScore scores pk
            (fun s => { s with total_points := total, level := level }),
          check_and_award_badges badges awards saved, total, level)

/-- Embeds the `points_to_add` branch of `GameScoreViewSet.update` from
`views/game.py` lines 160-171: the raw request value is added to the total
with no sign validation, the level is recomputed, the score is saved and
badges are checked.  The full update method, its serializer fall-through of
line 173 included, is `game_update` below. -/
def game_update_points_to_add (badges : List Badge) (awards : List UserBadge)
    (scores : List GameScore) (pk : Nat) (points_to_add : Int) :
    Except ApiError (List GameScore × List UserBadge × Int × Int) :=
  match findScore scores pk with
  | none => .error .notFound
  | some score =>
    let total := score.total_points + points_to_add
    let level := calculate_level total
    let saved := { score with total_points := total, level := level }
    .ok (updateScore scores pk
          (fun s => { s with total_points := total, level := level }),
        check_and_award_badges badges awards saved, total, level)

/-- Embeds `GameScoreViewSet.update` from `views/game.py` lines 150-173 in
full: a request carrying `points_to_add` takes the inline branch, which adds
the amount, recomputes the level, saves both and checks badges; any other
request falls through to the generic framework update over
`GameScoreUpdateSerializer` (line 173), which writes the writable
`total_points` field when supplied and saves — this viewset declares no
`perform_update` override, so the stored `level` is NOT recomputed on the
fall-through path.  Returns the new scores and awards tables. -/
def game_update (badges : List Badge) (awards : List UserBadge)
    (scores : List GameScore) (pk : Nat)
    (points_to_add total_points : Option Int) :
    Except ApiError (List GameScore × List UserBadge) :=
  match findScore scores pk with
  | none => .error .notFound
  | some score =>
    match points_to_add with
    | some p =>
      let total := score.total_points + p
      let level := calculate_level total
      let saved := { score with total_points := total, level := level }
      .ok (updateScore scores pk
            (fun s => { s with total_points := total, level := level }),
          check_and_award_badges badges awards saved)
    | none =>
      match total_points with
      | some t => .ok (updateScore scores pk (fun s => { s with total_points := t }), awards)
      | none => .ok (scores, awards)

/-- Embeds `GameScoreViewSet.create` from `views/game.py` lines 115-148:
reject when a score for (user, party) already exists, otherwise insert a row
with the requested total (model default level 1), then set the level with
`calculate_level` and save. -/
def createScore (scores : List GameScore) (nextId user party : Nat)
    (total_points : Int) : Except ApiError (List GameScore) :=
  match findUserPartyScore scores user party with
  | some _ => .error .badRequest
  | none =>
    let created : GameScore :=
      { id := nextId, user := user, party := party,
        total_points := total_points, level := 1 }
    let saved := { created with level := calculate_level created.total_points }
    .ok (scores ++ [saved])

/-- Embeds the update path of `GameScoreViewSet` from `views/game_score.py`
(the viewset routed at `api/scores`): the serializer writes `total_points`
(`level` is read-only) and `perform_update` immediately recomputes the level
from the saved instance and saves again (lines 70-74). -/
def gameScoreUpdate (scores : List GameScore) (pk : Nat) (new_total : Int) :
    Except ApiError (List GameScore) :=
  match findScore scores pk with
  | none => .error .notFound
  | some _ =>
    .ok (updateScore scores pk (fun s =>
      { s with total_points := new_total, level := calculate_level new_total }))

/-- Embeds `GameScoreSerializer.get_rank` from `views/game.py` lines 59-65 and
the `ranking` action of `views/game_score.py` lines 199-226: one plus the
number of scores in the same party whose total is strictly greater. -/
def get_rank (scores : List GameScore) (obj : GameScore) : Nat :=
  (scores.filter (fun t =>
    decide (t.party = obj.party) && decide (obj.total_points < t.total_points))).length + 1

/-- Database row of `birthdayapi.models.trivia.TriviaQuestion`: primary key,
optional owning party (`None` means global), the four option texts, the
index of the correct option, the point value and the active flag. -/
structure TriviaQuestion where
  id : Nat
  party : Option Nat
  option_1 : String
  option_2 : String
  option_3 : String
  option_4 : String
  correct_answer : Int
  points : Int
  is_active : Bool
deriving DecidableEq

/-- Embeds `TriviaQuestion.get_options` from `models/trivia.py` lines 30-37:
the first two options always, the third and fourth only when non-empty. -/
def TriviaQuestion.get_options (q : TriviaQuestion) : List String :=
  let options := [q.option_1, q.option_2]
  let options := if q.option_3 ≠ "" then options ++ [q.option_3] else options
  if q.option_4 ≠ "" then options ++ [q.option_4] else options

/-- Embeds the question query of `TriviaViewSet` in `views/trivia.py` lines
260-264: active questions that are party-scoped to the given party or global. -/
def visibleQuestions (questions : List TriviaQuestion) (party : Nat) :
    List TriviaQuestion :=
  questions.filter (fun q =>
    q.is_active && (decide (q.party = some party) || decide (q.party = none)))

/-- Embeds the `questions_dict` lookup of `TriviaViewSet.submit` (primary keys
are distinct, so the dictionary lookup is the first match). -/
def lookupQuestion (questions : List TriviaQuestion) (qid : Nat) :
    Option TriviaQuestion :=
  questions.find? (fun q => decide (q.id = qid))

/-- Per-question entry of the `question_results` list built by
`TriviaViewSet.submit` (the echoed question text is omitted). -/
structure AnswerResult where
  question_id : Nat
  your_answer : Int
  correct_answer : Int
  is_correct : Bool
  points_earned : Int
deriving DecidableEq

/-- Embeds the answer loop of `TriviaViewSet.submit` from `views/trivia.py`
lines 272-293: an answer whose question id is not in the visible set is
skipped; otherwise correctness is exact equality with `correct_answer`, a
correct answer adds the question's points and increments the correct count,
and every found answer appends a result entry.  Returns the accumulated
points, the correct count and the result entries in submission order. -/
def processAnswers (questions : List TriviaQuestion) :
    List (Nat × Int) → Int × Nat × List AnswerResult
  | [] => (0, 0, [])
  | (qid, ans) :: rest =>
    match lookupQuestion questions qid with
    | none => processAnswers questions rest
    | some q =>
      let acc := processAnswers questions rest
      let correct := decide (ans = q.correct_answer)
      ((if correct then q.points else 0) + acc.1,
       (if correct then 1 else 0) + acc.2.1,
       { question_id := qid, your_answer := ans, correct_answer := q.correct_answer,
         is_correct := correct,
         points_earned := if correct then q.points else 0 } :: acc.2.2)

/-- Embeds `GameScore.objects.get_or_create(user=..., party=...,
defaults=dict(total_points=0, level=1))` from `TriviaViewSet.submit`: return
the existing row, or insert a fresh row (primary key `nextId`) with total 0
and level 1.  The Bool reports whether a row was created. -/
def get_or_create_score (scores : List GameScore) (nextId user party : Nat) :
    GameScore × List GameScore × Bool :=
  match findUserPartyScore scores user party with
  | some s => (s, scores, false)
  | none =>
    let created : GameScore :=
      { id := nextId, user := user, party := party, total_points := 0, level := 1 }
    (created, scores ++ [created], true)

/-- Embeds `TriviaViewSet.submit` from `views/trivia.py` lines 208-318: an
empty answers array is a validation error; otherwise the score row for
(user, party) is fetched or created up front, the answers are graded against
the visible questions, and the summed points are added to the row, with the
level recomputed, unconditionally.  Returns the new scores table, the points
earned, the correct count and the per-question results. -/
def submit (questions : List TriviaQuestion) (scores : List GameScore)
    (nextId user party : Nat) (answers : List (Nat × Int)) :
    Except ApiError (List GameScore × Int × Nat × List AnswerResult) :=
  if answers.isEmpty then .error .badRequest
  else
    let gc := get_or_create_score scores nextId user party
    let acc := processAnswers (visibleQuestions questions party) answers
    let total := gc.1.total_points + acc.1
    let level := calculate_level total
    .ok (updateUserPartyScore gc.2.1 user party
          (fun s => { s with total_points := total, level := level }),
        acc.1, acc.2.1, acc.2.2)

/-- Embeds `enumerate(scores, 1)` from the leaderboard loops: pair each list
element with its 1-based position starting at `n`. -/
def enumerate1 (n : Nat) : List GameScore → List (Nat × GameScore)
  | [] => []
  | s :: ss => (n, s) :: enumerate1 (n + 1) ss

/-- Insertion of a score into a list sorted by descending `total_points`,
placed after every element with an equal or greater total. -/
def insertDesc (s : GameScore) : List GameScore → List GameScore
  | [] => [s]
  | t :: ts => if t.total_points < s.total_points then s :: t :: ts
               else t :: insertDesc s ts

/-- Embeds `order_by('-total_points')`: sort by descending total. -/
def sortScoresDesc : List GameScore → List GameScore
  | [] => []
  | s :: ss => insertDesc s (sortScoresDesc ss)

/-- Embeds `GameScoreViewSet.leaderboard` from `views/game.py` lines 189-225
(same shape in `views/game_score.py` lines 119-158 and the `top_players` list
of `party_stats`): the party's scores ordered by descending total, truncated
to `limit`, each entry paired with its 1-based position as its rank. -/
def leaderboard (scores : List GameScore) (party : Nat) (limit : Nat) :
    List (Nat × GameScore) :=
  enumerate1 1
    ((sortScoresDesc (scores.filter (fun s => decide (s.party = party)))).take limit)

/-- Embeds the cascading option count of `TriviaQuestionSerializer.validate`
from `views/trivia_question.py` lines 93-101: each later non-empty option
overwrites the count with its own position (Python string truthiness is
non-emptiness). -/
def options_count (o1 o2 o3 o4 : String) : Nat :=
  let c : Nat := 0
  let c := if o1 ≠ "" then 1 else c
  let c := if o2 ≠ "" then 2 else c
  let c := if o3 ≠ "" then 3 else c
  if o4 ≠ "" then 4 else c

/-- Number of non-empty options among the four, the quantity named by the
specification's invariant. -/
def nonEmptyOptionsCount (o1 o2 o3 o4 : String) : Nat :=
  (if o1 ≠ "" then 1 else 0) + (if o2 ≠ "" then 1 else 0)
    + (if o3 ≠ "" then 1 else 0) + (if o4 ≠ "" then 1 else 0)

/-- Embeds the body of `TriviaQuestionSerializer.validate` from
`views/trivia_question.py` lines 103-120 for a present `correct_answer`:
reject when no option is counted, reject when the answer index is negative or
at least `options_count`, accept otherwise. -/
def triviaValidate (o1 o2 o3 o4 : String) (correct_answer : Int) : Bool :=
  let cnt := options_count o1 o2 o3 o4
  if cnt = 0 then false
  else if correct_answer < 0 ∨ (cnt : Int) ≤ correct_answer then false
  else true

/-- Acceptance of a create request by `TriviaQuestionSerializer`: the
model-derived fields `option_1` and `option_2` disallow blank values (the
model declares them without `blank=True`, so the generated serializer
CharFields reject empty strings), then the `validate` body runs. -/
def triviaCreateAccepts (o1 o2 o3 o4 : String) (correct_answer : Int) : Bool :=
  decide (o1 ≠ "") && decide (o2 ≠ "") && triviaValidate o1 o2 o3 o4 correct_answer

/-- Level invariant of the specification: every stored score's level is
`calculate_level` of its stored total. -/
def LevelInv (scores : List GameScore) : Prop :=
  ∀ s ∈ scores, s.level = calculate_level s.total_points

lemma levelInv_updateScore (scores : List GameScore) (pk : Nat) (T : Int)
    (h : LevelInv scores) :
    LevelInv (updateScore scores pk
      (fun s => { s with total_points := T, level := calculate_level T })) := by
  intro s hs
  simp only [updateScore, List.mem_map] at hs
  obtain ⟨t, ht, rfl⟩ := hs
  by_cases hid : t.id = pk
  · simp [hid]
  · simpa [hid] using h t ht

lemma levelInv_updateUserPartyScore (scores : List GameScore) (user party : Nat)
    (T : Int) (h : LevelInv scores) :
    LevelInv (updateUserPartyScore scores user party
      (fun s => { s with total_points := T, level := calculate_level T })) := by
  intro s hs
  simp only [updateUserPartyScore, List.mem_map] at hs
  obtain ⟨t, ht, rfl⟩ := hs
  by_cases hup : t.user = user ∧ t.party = party
  · simp [hup]
  · simpa [hup] using h t ht

lemma levelInv_append_single (scores : List GameScore) (s : GameScore)
    (h : LevelInv scores) (hs : s.level = calculate_level s.total_points) :
    LevelInv (scores ++ [s]) := by
  intro t ht
  rcases List.mem_append.1 ht with h1 | h1
  · exact h t h1
  · simp only [List.mem_singleton] at h1
    subst h1
    exact hs

lemma findScore_updateScore (scores : List GameScore) (pk : Nat)
    (f : GameScore → GameScore) (hpres : ∀ s, (f s).id = s.id) :
    findScore (updateScore scores pk f) pk = (findScore scores pk).map f := by
  induction scores with
  | nil => rfl
  | cons t ts ih =>
    simp only [findScore, updateScore, List.map_cons] at ih ⊢
    by_cases h : t.id = pk
    · rw [if_pos h, List.find?_cons_of_pos _ (by simp [hpres t, h]),
        List.find?_cons_of_pos _ (by simp [h])]
      rfl
    · rw [if_neg h, List.find?_cons_of_neg _ (by simp [h]),
        List.find?_cons_of_neg _ (by simp [h])]
      exact ih

/-- C1 (amended): after create, the routed viewset's update (whose
`perform_update` recomputes the level), both `add_points` actions, the
`points_to_add` branch of the legacy update and the trivia submission, every
stored level equals `floor(total_points / 100) + 1` — with 0 giving level 1,
99 giving level 1 and 100 giving level 2; the legacy update's serializer
fall-through, however, writes `total_points` directly and leaves the stored
level exactly as it was, so that one update path can leave the level stale
relative to the total. -/
theorem C1_level_invariant :
    (calculate_level 0 = 1 ∧ calculate_level 99 = 1 ∧ calculate_level 100 = 2
      ∧ calculate_level 250 = 3)
    ∧ (∀ scores nextId user party t scores2,
        createScore scores nextId user party t = .ok scores2 →
        LevelInv scores → LevelInv scores2)
    ∧ (∀ scores pk t scores2,
        gameScoreUpdate scores pk t = .ok scores2 →
        LevelInv scores → LevelInv scores2)
    ∧ (∀ scores pk p out,
        add_points scores pk p = .ok out →
        LevelInv scores → LevelInv out.1)
    ∧ (∀ badges awards scores pk p out,
        game_add_points badges awards scores pk p = .ok out →
        LevelInv scores → LevelInv out.1)
    ∧ (∀ badges awards scores pk p out,
        game_update_points_to_add badges awards scores pk p = .ok out →
        LevelInv scores → LevelInv out.1)
    ∧ (∀ badges awards scores pk p tp out,
        game_update badges awards scores pk (some p) tp = .ok out →
        LevelInv scores → LevelInv out.1)
    ∧ (∀ badges awards scores pk t score,
        findScore scores pk = some score →
        ∃ scores2,
          game_update badges awards scores pk none (some t) = .ok (scores2, awards)
          ∧ findScore scores2 pk = some { score with total_points := t })
    ∧ (∀ questions scores nextId user party answers out,
        submit questions scores nextId user party answers = .ok out →
        LevelInv scores → LevelInv out.1) := by
  refine ⟨⟨by decide, by decide, by decide, by decide⟩, ?_, ?_, ?_, ?_, ?_, ?_, ?_, ?_⟩
  · intro scores nextId user party t scores2 h hinv
    unfold createScore at h
    cases hf : findUserPartyScore scores user party with
    | some s => rw [hf] at h; cases h
    | none =>
      rw [hf] at h
      simp only [Except.ok.injEq] at h
      subst h
      exact levelInv_append_single _ _ hinv rfl
  · intro scores pk t scores2 h hinv
    unfold gameScoreUpdate at h
    cases hf : findScore scores pk with
    | none => rw [hf] at h; cases h
    | some s =>
      rw [hf] at h
      simp only [Except.ok.injEq] at h
      subst h
      exact levelInv_updateScore _ _ _ hinv
  · intro scores pk p out h hinv
    unfold add_points at h
    cases hf : findScore scores pk with
    | none => rw [hf] at h; cases h
    | some s =>
      rw [hf] at h
      by_cases hp : p ≤ 0
      · simp only [if_pos hp] at h
        cases h
      · simp only [if_neg hp, Except.ok.injEq] at h
        subst h
        exact levelInv_updateScore _ _ _ hinv
  · intro badges awards scores pk p out h hinv
    unfold game_add_points at h
    cases hf : findScore scores pk with
    | none => rw [hf] at h; cases h
    | some s =>
      rw [hf] at h
      by_cases hp : p ≤ 0
      · simp only [if_pos hp] at h
        cases h
      · simp only [if_neg hp, Except.ok.injEq] at h
        subst h
        exact levelInv_updateScore _ _ _ hinv
  · intro badges awards scores pk p out h hinv
    unfold game_update_points_to_add at h
    cases hf : findScore scores pk with
    | none => rw [hf] at h; cases h
    | some s =>
      rw [hf] at h
      simp only [Except.ok.injEq] at h
      subst h
      exact levelInv_updateScore _ _ _ hinv
  · intro badges awards scores pk p tp out h hinv
    unfold game_update at h
    cases hf : findScore scores pk with
    | none => rw [hf] at h; cases h
    | some s =>
      rw [hf] at h
      simp only [Except.ok.injEq] at h
      subst h
      exact levelInv_updateScore _ _ _ hinv
  · intro badges awards scores pk t score hf
    have heval : game_update badges awards scores pk none (some t)
        = .ok (updateScore scores pk (fun s => { s with total_points := t }), awards) := by
      simp only [game_update, hf]
    refine ⟨_, heval, ?_⟩
    rw [findScore_updateScore scores pk (fun s => { s with total_points := t }) (fun s => rfl), hf]
    rfl
  · intro questions scores nextId user party answers out h hinv
    unfold submit at h
    by_cases ha : answers.isEmpty
    · rw [if_pos ha] at h; cases h
    · simp only [if_neg ha, Except.ok.injEq] at h
      subst h
      dsimp only
      apply levelInv_updateUserPartyScore
      unfold get_or_create_score
      cases hf : findUserPartyScore scores user party with
      | some s => exact hinv
      | none =>
        dsimp only
        refine levelInv_append_single _ _ hinv ?_
        show (1 : Int) = calculate_level 0
        decide

/-- Witness for C1 at a concrete run of `add_points`: 50 points added to a
score of 100 give total 150 with level 2. -/
theorem C1_level_invariant_witness :
    LevelInv [{ id := 1, user := 1, party := 1, total_points := 150, level := 2 }] :=
  C1_level_invariant.2.2.2.1
    [{ id := 1, user := 1, party := 1, total_points := 100, level := 2 }] 1 50
    ([{ id := 1, user := 1, party := 1, total_points := 150, level := 2 }], 150, 2)
    (by rfl) (by unfold LevelInv; decide)

/-- C1 counterexample: a legacy update request carrying `total_points` 500
and no `points_to_add` takes the serializer fall-through, which stores the
new total while keeping the old level 1 — 500 points demand level 6, so the
level invariant fails after this point-mutating update. -/
theorem C1_counterexample :
    game_update [] [] [⟨1, 1, 1, 0, 1⟩] 1 none (some 500)
      = .ok ([⟨1, 1, 1, 500, 1⟩], [])
    ∧ ¬ LevelInv [⟨1, 1, 1, 500, 1⟩] := by
  constructor
  · rfl
  · intro h
    have h2 := h ⟨1, 1, 1, 500, 1⟩ (List.mem_singleton_self _)
    revert h2
    decide

/-- C2 counterexample: on an empty scores table, `add_points` does not
lazily create a Score record for the user and party — it responds 404 for
the missing primary key, creating nothing. -/
theorem C2_counterexample :
    add_points ([] : List GameScore) 1 5 = Except.error ApiError.notFound := rfl

/-- C2 (amended): `add_points` operates on an existing Score record located
by primary key and returns a not-found error when none exists, rather than
lazily creating one; given the record exists and the amount is positive, it
adds the amount to the stored total, recomputes the level by the level
formula, and returns the updated total and level (the lazy get-or-create
with initial total 0 exists only on the trivia submission path). -/
theorem C2_add_points_existing (scores : List GameScore) (pk : Nat)
    (points : Int) (s : GameScore) (hf : findScore scores pk = some s)
    (hp : 0 < points) :
    ∃ scores2,
      add_points scores pk points =
        .ok (scores2, s.total_points + points, calculate_level (s.total_points + points))
      ∧ findScore scores2 pk = some { s with
          total_points := s.total_points + points,
          level := calculate_level (s.total_points + points) } := by
  have heval : add_points scores pk points =
      .ok (updateScore scores pk (fun t => { t with
            total_points := s.total_points + points,
            level := calculate_level (s.total_points + points) }),
          s.total_points + points, calculate_level (s.total_points + points)) := by
    simp only [add_points, hf]
    rw [if_neg (not_le.mpr hp)]
  refine ⟨_, heval, ?_⟩
  rw [findScore_updateScore scores pk (fun t => { t with total_points := s.total_points + points, level := calculate_level (s.total_points + points) }) (fun t => rfl), hf]
  rfl

/-- Witness for the amended C2 at a concrete input: adding 5 points to an
existing score of 10. -/
theorem C2_add_points_existing_witness :
    ∃ scores2,
      add_points [{ id := 1, user := 1, party := 1, total_points := 10, level := 1 }] 1 5 =
        .ok (scores2, 10 + 5, calculate_level (10 + 5))
      ∧ findScore scores2 1 = some ⟨1, 1, 1, 10 + 5, calculate_level (10 + 5)⟩ :=
  C2_add_points_existing
    [{ id := 1, user := 1, party := 1, total_points := 10, level := 1 }] 1 5
    { id := 1, user := 1, party := 1, total_points := 10, level := 1 }
    (by rfl) (by decide)

lemma earnedBadgeIds_append (awards1 awards2 : List UserBadge) (u p : Nat) :
    earnedBadgeIds (awards1 ++ awards2) u p
      = earnedBadgeIds awards1 u p ++ earnedBadgeIds awards2 u p := by
  simp [earnedBadgeIds, List.filter_append]

lemma earnedBadgeIds_map_new (l : List Badge) (u p : Nat) :
    earnedBadgeIds (l.map (fun b => { user := u, badge := b.id, party := p })) u p
      = l.map Badge.id := by
  induction l with
  | nil => rfl
  | cons b l ih =>
    simp only [List.map_cons, earnedBadgeIds, List.filter_cons] at ih ⊢
    simpa using ih

lemma mem_earnedBadgeIds (awards : List UserBadge) (u p i : Nat) :
    i ∈ earnedBadgeIds awards u p ↔
      ({ user := u, badge := i, party := p } : UserBadge) ∈ awards := by
  simp only [earnedBadgeIds, List.mem_map, List.mem_filter, decide_eq_true_eq]
  constructor
  · rintro ⟨a, ⟨ha, hu, hp⟩, rfl⟩
    cases a
    cases hu
    cases hp
    exact ha
  · intro h
    exact ⟨_, ⟨h, rfl, rfl⟩, rfl⟩

lemma availableBadges_saturated (badges : List Badge) (awards : List UserBadge)
    (u p : Nat) (pts : Int) :
    availableBadges badges
      (awards ++ (availableBadges badges awards u p pts).map
        (fun b => { user := u, badge := b.id, party := p })) u p pts = [] := by
  rw [availableBadges, List.filter_eq_nil_iff]
  intro b hb hpred
  rw [Bool.and_eq_true, Bool.and_eq_true] at hpred
  obtain ⟨⟨hact, hreq⟩, hnot⟩ := hpred
  rw [Bool.not_eq_true', decide_eq_false_iff_not] at hnot
  apply hnot
  rw [earnedBadgeIds_append, earnedBadgeIds_map_new, List.mem_append]
  by_cases hin : b.id ∈ earnedBadgeIds awards u p
  · exact Or.inl hin
  · refine Or.inr (List.mem_map.2 ⟨b, ?_, rfl⟩)
    simp [availableBadges, List.mem_filter, hb, hact, hreq, hin]

lemma auto_award_twice (badges : List Badge) (awards : List UserBadge)
    (scores : List GameScore) (u p : Nat) (awards1 new1 : List UserBadge)
    (h : auto_award badges awards scores u p = .ok (awards1, new1)) :
    auto_award badges awards1 scores u p = .ok (awards1, []) := by
  unfold auto_award at h ⊢
  cases hf : findUserPartyScore scores u p with
  | none => rw [hf] at h; cases h
  | some s =>
    rw [hf] at h
    simp only [Except.ok.injEq, Prod.mk.injEq] at h
    obtain ⟨h1, h2⟩ := h
    subst h1
    simp only [availableBadges_saturated, List.map_nil, List.append_nil]

lemma auto_award_preserves_nodup (badges : List Badge) (awards : List UserBadge)
    (scores : List GameScore) (u p : Nat) (awards1 new1 : List UserBadge)
    (h : auto_award badges awards scores u p = .ok (awards1, new1))
    (hA : (awards.map (fun a => (a.user, a.badge, a.party))).Nodup)
    (hB : (badges.map Badge.id).Nodup) :
    (awards1.map (fun a => (a.user, a.badge, a.party))).Nodup := by
  unfold auto_award at h
  cases hf : findUserPartyScore scores u p with
  | none => rw [hf] at h; cases h
  | some s =>
    rw [hf] at h
    simp only [Except.ok.injEq, Prod.mk.injEq] at h
    obtain ⟨h1, h2⟩ := h
    subst h1
    rw [List.map_append, List.nodup_append]
    have hids : ((availableBadges badges awards u p s.total_points).map Badge.id).Nodup :=
      hB.sublist ((List.filter_sublist _).map Badge.id)
    refine ⟨hA, ?_, ?_⟩
    · rw [List.map_map]
      have hcomp :
          (availableBadges badges awards u p s.total_points).map
            ((fun a : UserBadge => (a.user, a.badge, a.party))
              ∘ (fun b => { user := u, badge := b.id, party := p }))
          = ((availableBadges badges awards u p s.total_points).map Badge.id).map
              (fun i => (u, i, p)) := by
        rw [List.map_map]
        rfl
      rw [hcomp]
      refine hids.map ?_
      intro a b hab
      simpa using hab
    · intro x hx1 hx2
      simp only [List.map_map, List.mem_map, Function.comp] at hx2
      obtain ⟨b, hbmem, rfl⟩ := hx2
      simp only [List.mem_map] at hx1
      obtain ⟨a, hamem, ha⟩ := hx1
      have haeq : a = { user := u, badge := b.id, party := p } := by
        cases a
        simp only [Prod.mk.injEq] at ha
        simp [ha.1, ha.2.1, ha.2.2]
      subst haeq
      have : b.id ∈ earnedBadgeIds awards u p :=
        (mem_earnedBadgeIds awards u p b.id).2 hamem
      rw [availableBadges, List.mem_filter] at hbmem
      simp only [Bool.and_eq_true, Bool.not_eq_true', decide_eq_false_iff_not] at hbmem
      exact hbmem.2.2 this

lemma caab_any_iff (acc : List UserBadge) (u i p : Nat) :
    (acc.any (fun a => decide (a.user = u ∧ a.badge = i ∧ a.party = p)) = true)
      ↔ ({ user := u, badge := i, party := p } : UserBadge) ∈ acc := by
  simp only [List.any_eq_true, decide_eq_true_eq]
  constructor
  · rintro ⟨a, ha, h1, h2, h3⟩
    cases a
    cases h1
    cases h2
    cases h3
    exact ha
  · intro h
    exact ⟨_, h, rfl, rfl, rfl⟩

lemma caab_foldl_mem_mono (score : GameScore) (L : List Badge)
    (acc : List UserBadge) (x : UserBadge) (hx : x ∈ acc) :
    x ∈ L.foldl (awardStep score) acc := by
  induction L generalizing acc with
  | nil => simpa using hx
  | cons b L ih =>
    simp only [List.foldl_cons]
    apply ih
    unfold awardStep
    split
    · exact hx
    · exact List.mem_append_left _ hx

lemma caab_foldl_award_mem (score : GameScore) (L : List Badge)
    (acc : List UserBadge) (b : Badge) (hb : b ∈ L) :
    ({ user := score.user, badge := b.id, party := score.party } : UserBadge)
      ∈ L.foldl (awardStep score) acc := by
  induction L generalizing acc with
  | nil => cases hb
  | cons b0 L ih =>
    simp only [List.foldl_cons]
    rcases List.mem_cons.1 hb with rfl | hb2
    · apply caab_foldl_mem_mono
      unfold awardStep
      by_cases hc : acc.any
          (fun a => decide (a.user = score.user ∧ a.badge = b.id ∧ a.party = score.party)) = true
      · rw [if_pos hc]
        exact (caab_any_iff acc score.user b.id score.party).1 hc
      · rw [if_neg hc]
        exact List.mem_append_right _ (List.mem_singleton_self _)
    · exact ih _ hb2

lemma caab_foldl_fixed (score : GameScore) (L : List Badge) (acc : List UserBadge)
    (h : ∀ b ∈ L,
      ({ user := score.user, badge := b.id, party := score.party } : UserBadge) ∈ acc) :
    L.foldl (awardStep score) acc = acc := by
  induction L with
  | nil => rfl
  | cons b0 L ih =>
    simp only [List.foldl_cons]
    rw [awardStep, if_pos ((caab_any_iff acc score.user b0.id score.party).2
      (h b0 (List.mem_cons_self _ _)))]
    exact ih (fun b hb => h b (List.mem_cons_of_mem _ hb))

lemma check_and_award_badges_idem (badges : List Badge) (awards : List UserBadge)
    (score : GameScore) :
    check_and_award_badges badges (check_and_award_badges badges awards score) score
      = check_and_award_badges badges awards score := by
  unfold check_and_award_badges
  apply caab_foldl_fixed
  intro b hb
  exact caab_foldl_award_mem score _ awards b hb

/-- C3: both badge-award operations are idempotent — a second `auto_award`
call with no intervening point change returns the same award table and
creates zero new records, and a second `_check_and_award_badges` pass leaves
the table unchanged — and `auto_award` never makes a (user, badge, party)
triple appear more than once when the award table starts without duplicates
and badge primary keys are distinct. -/
theorem C3_award_idempotent_unique :
    (∀ badges awards scores user party awards1 new1,
      auto_award badges awards scores user party = .ok (awards1, new1) →
      auto_award badges awards1 scores user party = .ok (awards1, []))
    ∧ (∀ badges awards scores user party awards1 new1,
      auto_award badges awards scores user party = .ok (awards1, new1) →
      (awards.map (fun a => (a.user, a.badge, a.party))).Nodup →
      (badges.map Badge.id).Nodup →
      (awards1.map (fun a => (a.user, a.badge, a.party))).Nodup)
    ∧ (∀ badges awards score,
      check_and_award_badges badges (check_and_award_badges badges awards score) score
        = check_and_award_badges badges awards score) :=
  ⟨fun badges awards scores user party awards1 new1 h =>
      auto_award_twice badges awards scores user party awards1 new1 h,
    fun badges awards scores user party awards1 new1 h hA hB =>
      auto_award_preserves_nodup badges awards scores user party awards1 new1 h hA hB,
    fun badges awards score => check_and_award_badges_idem badges awards score⟩

/-- Witness for C3: a user with a fresh 0-point score is awarded the
0-threshold badge once; the repeated call changes nothing and creates no
record. -/
theorem C3_award_idempotent_unique_witness :
    auto_award [{ id := 1, points_required := 0, is_active := true }]
      [{ user := 1, badge := 1, party := 1 }]
      [{ id := 1, user := 1, party := 1, total_points := 0, level := 1 }] 1 1
      = .ok ([{ user := 1, badge := 1, party := 1 }], []) :=
  C3_award_idempotent_unique.1
    [{ id := 1, points_required := 0, is_active := true }] []
    [{ id := 1, user := 1, party := 1, total_points := 0, level := 1 }] 1 1
    [{ user := 1, badge := 1, party := 1 }] [{ user := 1, badge := 1, party := 1 }]
    (by rfl)

/-- C4: `get_rank` is one plus the count of scores in the same party with a
strictly greater total; scores tied on total within a party get equal ranks,
and in the 100/100/50 scenario the two 100-point users both get rank 1 while
the 50-point user gets rank 3. -/
theorem C4_get_rank :
    (∀ scores obj, get_rank scores obj
        = scores.countP (fun t =>
            decide (t.party = obj.party) && decide (obj.total_points < t.total_points)) + 1)
    ∧ (∀ scores s t, s.party = t.party → s.total_points = t.total_points →
        get_rank scores s = get_rank scores t)
    ∧ get_rank [⟨1, 1, 1, 100, 2⟩, ⟨2, 2, 1, 100, 2⟩, ⟨3, 3, 1, 50, 1⟩]
        ⟨1, 1, 1, 100, 2⟩ = 1
    ∧ get_rank [⟨1, 1, 1, 100, 2⟩, ⟨2, 2, 1, 100, 2⟩, ⟨3, 3, 1, 50, 1⟩]
        ⟨2, 2, 1, 100, 2⟩ = 1
    ∧ get_rank [⟨1, 1, 1, 100, 2⟩, ⟨2, 2, 1, 100, 2⟩, ⟨3, 3, 1, 50, 1⟩]
        ⟨3, 3, 1, 50, 1⟩ = 3 := by
  refine ⟨?_, ?_, by decide, by decide, by decide⟩
  · intro scores obj
    rw [get_rank, List.countP_eq_length_filter]
  · intro scores s t hp ht
    unfold get_rank
    rw [hp, ht]

/-- Witness for the tie clause of C4: the two 100-point users of the scenario
receive the same rank. -/
theorem C4_get_rank_witness :
    get_rank [⟨1, 1, 1, 100, 2⟩, ⟨2, 2, 1, 100, 2⟩, ⟨3, 3, 1, 50, 1⟩] ⟨1, 1, 1, 100, 2⟩
      = get_rank [⟨1, 1, 1, 100, 2⟩, ⟨2, 2, 1, 100, 2⟩, ⟨3, 3, 1, 50, 1⟩] ⟨2, 2, 1, 100, 2⟩ :=
  C4_get_rank.2.1 [⟨1, 1, 1, 100, 2⟩, ⟨2, 2, 1, 100, 2⟩, ⟨3, 3, 1, 50, 1⟩]
    ⟨1, 1, 1, 100, 2⟩ ⟨2, 2, 1, 100, 2⟩ rfl rfl

lemma findUserPartyScore_updateUserPartyScore (scores : List GameScore)
    (u p : Nat) (T L : Int) :
    findUserPartyScore (updateUserPartyScore scores u p
        (fun t => { t with total_points := T, level := L })) u p
      = (findUserPartyScore scores u p).map
          (fun t => { t with total_points := T, level := L }) := by
  induction scores with
  | nil => rfl
  | cons t ts ih =>
    simp only [findUserPartyScore, updateUserPartyScore, List.map_cons] at ih ⊢
    by_cases h : t.user = u ∧ t.party = p
    · rw [if_pos h, List.find?_cons_of_pos _ (by simp [h.1, h.2]),
        List.find?_cons_of_pos _ (by simp [h.1, h.2])]
      rfl
    · rw [if_neg h, List.find?_cons_of_neg _ (by simpa using h),
        List.find?_cons_of_neg _ (by simpa using h)]
      exact ih

lemma findUserPartyScore_cons_self (c : GameScore) (rest : List GameScore)
    (u p : Nat) (hc : c.user = u ∧ c.party = p) :
    findUserPartyScore (c :: rest) u p = some c := by
  rw [findUserPartyScore, List.find?_cons_of_pos _ (by simp [hc.1, hc.2])]

lemma findUserPartyScore_append_of_none (scores1 scores2 : List GameScore)
    (u p : Nat) (h : findUserPartyScore scores1 u p = none) :
    findUserPartyScore (scores1 ++ scores2) u p = findUserPartyScore scores2 u p := by
  induction scores1 with
  | nil => rfl
  | cons t ts ih =>
    simp only [findUserPartyScore, List.cons_append] at h ⊢
    by_cases hpt : t.user = u ∧ t.party = p
    · rw [List.find?_cons_of_pos _ (by simp [hpt.1, hpt.2])] at h
      cases h
    · rw [List.find?_cons_of_neg _ (by simpa using hpt)] at h
      rw [List.find?_cons_of_neg _ (by simpa using hpt)]
      exact ih h

/-- C5 counterexample: a submission whose only answer is wrong (selected
index 0, correct index 1) by a user with no Score row still creates a Score
record with total 0 and level 1 — the claim says no record may be created. -/
theorem C5_counterexample :
    submit [⟨1, none, "A", "B", "", "", 1, 20, true⟩] [] 7 3 1 [(1, 0)]
      = .ok ([⟨7, 3, 1, 0, 1⟩], 0, 0, [⟨1, 0, 1, false, 0⟩]) := rfl

/-- C5 (amended): the trivia submission applies the point-add exactly once
with the summed `points_earned`, but unconditionally rather than only when
`points_earned > 0`: the Score row for (user, party) is get-or-created at the
start of every submission, so an all-wrong submission leaves the total and
level values unchanged yet still creates a Score record (total 0, level 1)
for a user who had none. -/
theorem C5_submit_unconditional (questions : List TriviaQuestion)
    (scores : List GameScore) (nextId user party : Nat)
    (answers : List (Nat × Int)) (hne : answers ≠ []) :
    (findUserPartyScore scores user party = none →
      ∃ scores2,
        submit questions scores nextId user party answers
          = .ok (scores2,
              (processAnswers (visibleQuestions questions party) answers).1,
              (processAnswers (visibleQuestions questions party) answers).2.1,
              (processAnswers (visibleQuestions questions party) answers).2.2)
        ∧ findUserPartyScore scores2 user party
          = some ⟨nextId, user, party,
              0 + (processAnswers (visibleQuestions questions party) answers).1,
              calculate_level
                (0 + (processAnswers (visibleQuestions questions party) answers).1)⟩)
    ∧ (∀ s, findUserPartyScore scores user party = some s →
      ∃ scores2,
        submit questions scores nextId user party answers
          = .ok (scores2,
              (processAnswers (visibleQuestions questions party) answers).1,
              (processAnswers (visibleQuestions questions party) answers).2.1,
              (processAnswers (visibleQuestions questions party) answers).2.2)
        ∧ findUserPartyScore scores2 user party
          = some { s with
              total_points := s.total_points
                + (processAnswers (visibleQuestions questions party) answers).1,
              level := calculate_level (s.total_points
                + (processAnswers (visibleQuestions questions party) answers).1) }) := by
  have ha : ¬ (answers.isEmpty = true) := by
    rw [List.isEmpty_iff]
    exact hne
  constructor
  · intro hf
    have heval : submit questions scores nextId user party answers
        = .ok (updateUserPartyScore (scores ++ [⟨nextId, user, party, 0, 1⟩]) user party
            (fun t => { t with
              total_points :=
                (0 : Int) + (processAnswers (visibleQuestions questions party) answers).1,
              level := calculate_level
                ((0 : Int) + (processAnswers (visibleQuestions questions party) answers).1) }),
          (processAnswers (visibleQuestions questions party) answers).1,
          (processAnswers (visibleQuestions questions party) answers).2.1,
          (processAnswers (visibleQuestions questions party) answers).2.2) := by
      rw [submit, if_neg ha]
      simp only [get_or_create_score, hf]
    refine ⟨_, heval, ?_⟩
    rw [findUserPartyScore_updateUserPartyScore,
      findUserPartyScore_append_of_none _ _ _ _ hf,
      findUserPartyScore_cons_self ⟨nextId, user, party, 0, 1⟩ [] user party ⟨rfl, rfl⟩]
    rfl
  · intro s hf
    have heval : submit questions scores nextId user party answers
        = .ok (updateUserPartyScore scores user party
            (fun t => { t with
              total_points := s.total_points
                + (processAnswers (visibleQuestions questions party) answers).1,
              level := calculate_level (s.total_points
                + (processAnswers (visibleQuestions questions party) answers).1) }),
          (processAnswers (visibleQuestions questions party) answers).1,
          (processAnswers (visibleQuestions questions party) answers).2.1,
          (processAnswers (visibleQuestions questions party) answers).2.2) := by
      rw [submit, if_neg ha]
      simp only [get_or_create_score, hf]
    refine ⟨_, heval, ?_⟩
    rw [findUserPartyScore_updateUserPartyScore, hf]
    rfl

/-- Witness for the amended C5: the all-wrong submission of the
counterexample, derived from the no-prior-score clause. -/
theorem C5_submit_unconditional_witness :
    ∃ scores2,
      submit [⟨1, none, "A", "B", "", "", 1, 20, true⟩] [] 7 3 1 [(1, 0)]
        = .ok (scores2, 0, 0, [⟨1, 0, 1, false, 0⟩])
      ∧ findUserPartyScore scores2 3 1 = some ⟨7, 3, 1, 0, 1⟩ :=
  (C5_submit_unconditional [⟨1, none, "A", "B", "", "", 1, 20, true⟩] [] 7 3 1
    [(1, 0)] (by decide)).1 rfl

/-- C6 counterexample: the `points_to_add` path of the legacy update accepts
a negative amount — minus 5 points applied to a total of 100 succeeds with
the new total 95 instead of being rejected with a validation error. -/
theorem C6_counterexample :
    game_update_points_to_add [] [] [⟨1, 1, 1, 100, 2⟩] 1 (-5)
      = .ok ([⟨1, 1, 1, 95, 1⟩], [], 95, 1) := rfl

/-- C6 (amended): the `add_points` actions of both viewsets reject a zero or
negative amount with an error response, which in this embedding carries no
state and hence leaves every Score record unchanged; but the `points_to_add`
path of the legacy update operation performs no sign validation and applies
any amount, zero or negative included, to an existing score. -/
theorem C6_amount_validation :
    (∀ scores pk points, points ≤ 0 →
      ∃ e, add_points scores pk points = .error e)
    ∧ (∀ badges awards scores pk points, points ≤ 0 →
      ∃ e, game_add_points badges awards scores pk points = .error e)
    ∧ (∀ badges awards scores pk points score,
      findScore scores pk = some score →
      ∃ scores2 awards2,
        game_update_points_to_add badges awards scores pk points
          = .ok (scores2, awards2, score.total_points + points,
              calculate_level (score.total_points + points))) := by
  refine ⟨?_, ?_, ?_⟩
  · intro scores pk points hp
    cases hf : findScore scores pk with
    | none => exact ⟨.notFound, by rw [add_points, hf]⟩
    | some s => exact ⟨.badRequest, by rw [add_points, hf]; exact if_pos hp⟩
  · intro badges awards scores pk points hp
    cases hf : findScore scores pk with
    | none => exact ⟨.notFound, by rw [game_add_points, hf]⟩
    | some s => exact ⟨.badRequest, by rw [game_add_points, hf]; exact if_pos hp⟩
  · intro badges awards scores pk points score hf
    have heval : game_update_points_to_add badges awards scores pk points
        = .ok (updateScore scores pk (fun s => { s with total_points := score.total_points + points, level := calculate_level (score.total_points + points) }),
            check_and_award_badges badges awards { score with total_points := score.total_points + points, level := calculate_level (score.total_points + points) },
            score.total_points + points, calculate_level (score.total_points + points)) := by
      simp only [game_update_points_to_add, hf]
    exact ⟨_, _, heval⟩

/-- Witness for C6: a zero amount is rejected by `add_points` on an existing
score. -/
theorem C6_amount_validation_witness :
    ∃ e, add_points [⟨1, 1, 1, 100, 2⟩] 1 0 = .error e :=
  C6_amount_validation.1 [⟨1, 1, 1, 100, 2⟩] 1 0 (by decide)

/-- C7 counterexample: with an active badge of threshold 0 and a user who has
no Score record, `auto_award` rejects the request instead of reading the
total as 0 and awarding the badge. -/
theorem C7_counterexample :
    auto_award [{ id := 1, points_required := 0, is_active := true }] [] [] 1 1
      = .error .badRequest := rfl

/-- C7 (amended): `auto_award` requires an existing Score record and rejects
with an error when there is none (only the read-only `available_for_user`
listing treats a missing record as 0 points); when a record exists — a
brand-new one with total 0 included — it awards exactly the active badges
whose `points_required` is at most the stored total and that are not yet
awarded for the (user, party) pair, so a `points_required == 0` badge is
awarded as soon as the score record exists. -/
theorem C7_auto_award_requires_score :
    (∀ badges awards scores user party,
      findUserPartyScore scores user party = none →
        auto_award badges awards scores user party = .error .badRequest
        ∧ (available_for_user badges awards scores user party).1 = 0)
    ∧ (∀ badges awards scores user party s,
      findUserPartyScore scores user party = some s →
      ∃ newAwards,
        auto_award badges awards scores user party = .ok (awards ++ newAwards, newAwards)
        ∧ ∀ i, ({ user := user, badge := i, party := party } : UserBadge) ∈ newAwards
          ↔ ∃ b ∈ badges, b.id = i ∧ b.is_active = true
              ∧ b.points_required ≤ s.total_points
              ∧ i ∉ earnedBadgeIds awards user party) := by
  constructor
  · intro badges awards scores user party hf
    constructor
    · rw [auto_award, hf]
    · rw [available_for_user, hf]
  · intro badges awards scores user party s hf
    refine ⟨_, by rw [auto_award, hf], ?_⟩
    intro i
    constructor
    · intro hi
      rw [List.mem_map] at hi
      obtain ⟨b, hbmem, hgb⟩ := hi
      have hbid : b.id = i := by
        have := congrArg UserBadge.badge hgb
        simpa using this
      rw [availableBadges, List.mem_filter] at hbmem
      simp only [Bool.and_eq_true, decide_eq_true_eq, Bool.not_eq_true',
        decide_eq_false_iff_not] at hbmem
      exact ⟨b, hbmem.1, hbid, hbmem.2.1.1, hbmem.2.1.2, hbid ▸ hbmem.2.2⟩
    · rintro ⟨b, hbmem, rfl, hact, hreq, hnotearned⟩
      rw [List.mem_map]
      refine ⟨b, ?_, rfl⟩
      rw [availableBadges, List.mem_filter]
      simp [hbmem, hact, hreq, hnotearned]

/-- Witness for the amended C7: a 0-threshold badge is awarded to a user
whose score record exists with total 0. -/
theorem C7_auto_award_requires_score_witness :
    ∃ newAwards,
      auto_award [{ id := 1, points_required := 0, is_active := true }] []
        [{ id := 1, user := 1, party := 1, total_points := 0, level := 1 }] 1 1
        = .ok ([] ++ newAwards, newAwards)
      ∧ ∀ i, ({ user := 1, badge := i, party := 1 } : UserBadge) ∈ newAwards
          ↔ ∃ b ∈ [({ id := 1, points_required := 0, is_active := true } : Badge)],
              b.id = i ∧ b.is_active = true ∧ b.points_required ≤ (0 : Int)
              ∧ i ∉ earnedBadgeIds [] 1 1 :=
  C7_auto_award_requires_score.2
    [{ id := 1, points_required := 0, is_active := true }] []
    [{ id := 1, user := 1, party := 1, total_points := 0, level := 1 }] 1 1
    { id := 1, user := 1, party := 1, total_points := 0, level := 1 } rfl

lemma processAnswers_append_skip (qs : List TriviaQuestion)
    (answers : List (Nat × Int)) (qid : Nat) (ans : Int)
    (h : lookupQuestion qs qid = none) :
    processAnswers qs (answers ++ [(qid, ans)]) = processAnswers qs answers := by
  induction answers with
  | nil => simp [processAnswers, h]
  | cons a rest ih =>
    obtain ⟨qid0, ans0⟩ := a
    cases hl : lookupQuestion qs qid0 with
    | none => simpa [processAnswers, hl] using ih
    | some q0 => simp [processAnswers, hl, ih]

lemma processAnswers_append_found (qs : List TriviaQuestion)
    (answers : List (Nat × Int)) (qid : Nat) (ans : Int) (q : TriviaQuestion)
    (h : lookupQuestion qs qid = some q) :
    processAnswers qs (answers ++ [(qid, ans)])
      = ((processAnswers qs answers).1
            + (if ans = q.correct_answer then q.points else 0),
          (processAnswers qs answers).2.1
            + (if ans = q.correct_answer then 1 else 0),
          (processAnswers qs answers).2.2
            ++ [⟨qid, ans, q.correct_answer, decide (ans = q.correct_answer),
                if ans = q.correct_answer then q.points else 0⟩]) := by
  induction answers with
  | nil => simp [processAnswers, h]
  | cons a rest ih =>
    obtain ⟨qid0, ans0⟩ := a
    cases hl : lookupQuestion qs qid0 with
    | none => simpa [processAnswers, hl] using ih
    | some q0 => simp [processAnswers, hl, ih, add_assoc]

/-- C8: in the trivia submission, an answer whose question id is not among
the active questions visible to the party is silently skipped — it changes
neither the points earned, the correct count, nor the result list that forms
the accuracy denominator; an answer to a found question is correct exactly
when the selected index equals the stored `correct_answer`, in which case the
question's points are added and the correct count is incremented, and every
found question is visible only when active and party-scoped or global. -/
theorem C8_answer_grading (questions : List TriviaQuestion) (party : Nat)
    (answers : List (Nat × Int)) (qid : Nat) (ans : Int) :
    (lookupQuestion (visibleQuestions questions party) qid = none →
      processAnswers (visibleQuestions questions party) (answers ++ [(qid, ans)])
        = processAnswers (visibleQuestions questions party) answers)
    ∧ (∀ q, lookupQuestion (visibleQuestions questions party) qid = some q →
      processAnswers (visibleQuestions questions party) (answers ++ [(qid, ans)])
        = ((processAnswers (visibleQuestions questions party) answers).1
              + (if ans = q.correct_answer then q.points else 0),
            (processAnswers (visibleQuestions questions party) answers).2.1
              + (if ans = q.correct_answer then 1 else 0),
            (processAnswers (visibleQuestions questions party) answers).2.2
              ++ [⟨qid, ans, q.correct_answer, decide (ans = q.correct_answer),
                  if ans = q.correct_answer then q.points else 0⟩]))
    ∧ (∀ q, lookupQuestion (visibleQuestions questions party) qid = some q →
      q.is_active = true ∧ (q.party = some party ∨ q.party = none)) := by
  refine ⟨?_, ?_, ?_⟩
  · intro h
    exact processAnswers_append_skip _ _ _ _ h
  · intro q h
    exact processAnswers_append_found _ _ _ _ _ h
  · intro q h
    have hmem : q ∈ visibleQuestions questions party :=
      List.mem_of_find?_eq_some h
    rw [visibleQuestions, List.mem_filter] at hmem
    have hpred := hmem.2
    simp only [Bool.and_eq_true, Bool.or_eq_true, decide_eq_true_eq] at hpred
    exact hpred

/-- Witness for C8 at a concrete submission: the lone answer matches the
correct index of the single visible question and earns its 20 points. -/
theorem C8_answer_grading_witness :
    processAnswers (visibleQuestions [⟨1, none, "A", "B", "", "", 1, 20, true⟩] 1)
        ([] ++ [(1, 1)])
      = (20, 1, [⟨1, 1, 1, true, 20⟩]) :=
  (C8_answer_grading [⟨1, none, "A", "B", "", "", 1, 20, true⟩] 1 [] 1 1).2.1
    ⟨1, none, "A", "B", "", "", 1, 20, true⟩ rfl

/-- C9 counterexample: a create request with options A, B, empty, D and
`correct_answer = 3` is accepted by the validator (the cascading count sees
four options because the fourth is non-empty), yet only three options are
non-empty, so the claimed bound `correct_answer < number of non-empty
options` fails. -/
theorem C9_counterexample :
    triviaCreateAccepts "A" "B" "" "D" 3 = true
      ∧ ¬ ((3 : Int) < (nonEmptyOptionsCount "A" "B" "" "D" : Int)) := by
  constructor
  · rfl
  · decide

/-- C9 (amended): every question accepted by create validation has its first
two options non-empty (hence at least two non-empty options) and satisfies
`0 <= correct_answer < options_count`, where `options_count` is the position
of the last non-empty option; only when no empty option precedes a non-empty
one (`option_3` empty forces `option_4` empty) does this coincide with the
number of non-empty options, recovering the claimed invariant. -/
theorem C9_validate_bounds (o1 o2 o3 o4 : String) (ca : Int)
    (h : triviaCreateAccepts o1 o2 o3 o4 ca = true) :
    0 ≤ ca ∧ ca < (options_count o1 o2 o3 o4 : Int)
      ∧ o1 ≠ "" ∧ o2 ≠ ""
      ∧ 2 ≤ nonEmptyOptionsCount o1 o2 o3 o4
      ∧ ((o3 = "" → o4 = "") →
          ca < (nonEmptyOptionsCount o1 o2 o3 o4 : Int)) := by
  rw [triviaCreateAccepts, Bool.and_eq_true, Bool.and_eq_true] at h
  obtain ⟨⟨h1, h2⟩, hval⟩ := h
  rw [decide_eq_true_eq] at h1 h2
  rw [triviaValidate] at hval
  by_cases hc0 : options_count o1 o2 o3 o4 = 0
  · rw [if_pos hc0] at hval
    cases hval
  · rw [if_neg hc0] at hval
    by_cases hrange : ca < 0 ∨ (options_count o1 o2 o3 o4 : Int) ≤ ca
    · rw [if_pos hrange] at hval
      cases hval
    · push_neg at hrange
      obtain ⟨hge, hlt⟩ := hrange
      refine ⟨hge, hlt, h1, h2, ?_, ?_⟩
      · rw [nonEmptyOptionsCount, if_pos h1, if_pos h2]
        omega
      · intro hcontig
        have hmono : options_count o1 o2 o3 o4 ≤ nonEmptyOptionsCount o1 o2 o3 o4 := by
          rw [options_count, nonEmptyOptionsCount]
          by_cases h4 : o4 = ""
          · by_cases h3 : o3 = ""
            · simp [h1, h2, h3, h4]
            · simp [h1, h2, h3, h4]
          · have h3 : ¬ o3 = "" := fun hh => h4 (hcontig hh)
            simp [h1, h2, h3, h4]
        exact lt_of_lt_of_le hlt (by exact_mod_cast hmono)

/-- Witness for the amended C9 at a fully populated accepted question. -/
theorem C9_validate_bounds_witness :
    0 ≤ (2 : Int) ∧ (2 : Int) < (options_count "A" "B" "C" "D" : Int)
      ∧ "A" ≠ "" ∧ "B" ≠ ""
      ∧ 2 ≤ nonEmptyOptionsCount "A" "B" "C" "D"
      ∧ (("C" = "" → "D" = "") →
          (2 : Int) < (nonEmptyOptionsCount "A" "B" "C" "D" : Int)) :=
  C9_validate_bounds "A" "B" "C" "D" 2 (by rfl)

lemma enumerate1_length (n : Nat) (l : List GameScore) :
    (enumerate1 n l).length = l.length := by
  induction l generalizing n with
  | nil => rfl
  | cons s ss ih => simp [enumerate1, ih]

lemma enumerate1_map_fst (n : Nat) (l : List GameScore) :
    (enumerate1 n l).map Prod.fst = List.range' n l.length := by
  induction l generalizing n with
  | nil => rfl
  | cons s ss ih => simp [enumerate1, List.range'_succ, ih]

lemma mem_enumerate1_snd (n : Nat) (l : List GameScore) (x : Nat × GameScore)
    (hx : x ∈ enumerate1 n l) : x.2 ∈ l := by
  induction l generalizing n with
  | nil => cases hx
  | cons s ss ih =>
    rcases List.mem_cons.1 hx with rfl | h2
    · exact List.mem_cons_self _ _
    · exact List.mem_cons_of_mem _ (ih _ h2)

lemma enumerate1_pairwise (r : GameScore → GameScore → Prop) (l : List GameScore)
    (h : l.Pairwise r) (n : Nat) :
    (enumerate1 n l).Pairwise (fun a b => r a.2 b.2) := by
  induction l generalizing n with
  | nil => exact List.Pairwise.nil
  | cons s ss ih =>
    rw [List.pairwise_cons] at h
    exact List.Pairwise.cons (fun x hx => h.1 x.2 (mem_enumerate1_snd _ _ _ hx))
      (ih h.2 (n + 1))

lemma mem_insertDesc (s x : GameScore) (l : List GameScore) :
    x ∈ insertDesc s l ↔ x = s ∨ x ∈ l := by
  induction l with
  | nil => simp [insertDesc]
  | cons t ts ih =>
    rw [insertDesc]
    split
    · simp [List.mem_cons]
    · simp only [List.mem_cons, ih]
      tauto

lemma insertDesc_pairwise (s : GameScore) (l : List GameScore)
    (h : l.Pairwise (fun a b => b.total_points ≤ a.total_points)) :
    (insertDesc s l).Pairwise (fun a b => b.total_points ≤ a.total_points) := by
  induction l with
  | nil => simp [insertDesc]
  | cons t ts ih =>
    rw [List.pairwise_cons] at h
    rw [insertDesc]
    split
    · rename_i hlt
      refine List.Pairwise.cons ?_ (List.Pairwise.cons h.1 h.2)
      intro x hx
      rcases List.mem_cons.1 hx with rfl | hx2
      · exact le_of_lt hlt
      · exact le_trans (h.1 x hx2) (le_of_lt hlt)
    · rename_i hge
      refine List.Pairwise.cons ?_ (ih h.2)
      intro x hx
      rcases (mem_insertDesc s x ts).1 hx with rfl | hx2
      · exact not_lt.mp hge
      · exact h.1 x hx2

lemma sortScoresDesc_pairwise (l : List GameScore) :
    (sortScoresDesc l).Pairwise (fun a b => b.total_points ≤ a.total_points) := by
  induction l with
  | nil => exact List.Pairwise.nil
  | cons s ss ih => exact insertDesc_pairwise s _ ih

/-- C10: the leaderboard pairs each entry of the party's descending-total
list with its 1-based position as its rank, so all leaderboard ranks are
distinct; in the 100/100/50 scenario the two tied 100-point users get the
distinct consecutive ranks 1 and 2 from the leaderboard, while the
strictly-greater-count-plus-one formula gives both of them rank 1. -/
theorem C10_leaderboard_dense_ranks :
    (∀ scores party limit,
      (leaderboard scores party limit).map Prod.fst
        = List.range' 1 (leaderboard scores party limit).length)
    ∧ (∀ scores party limit,
      ((leaderboard scores party limit).map Prod.fst).Nodup)
    ∧ (∀ scores party limit,
      (leaderboard scores party limit).Pairwise
        (fun a b => b.2.total_points ≤ a.2.total_points))
    ∧ leaderboard [⟨1, 1, 1, 100, 2⟩, ⟨2, 2, 1, 100, 2⟩, ⟨3, 3, 1, 50, 1⟩] 1 10
        = [(1, ⟨2, 2, 1, 100, 2⟩), (2, ⟨1, 1, 1, 100, 2⟩), (3, ⟨3, 3, 1, 50, 1⟩)]
    ∧ get_rank [⟨1, 1, 1, 100, 2⟩, ⟨2, 2, 1, 100, 2⟩, ⟨3, 3, 1, 50, 1⟩]
        ⟨1, 1, 1, 100, 2⟩ = 1
    ∧ get_rank [⟨1, 1, 1, 100, 2⟩, ⟨2, 2, 1, 100, 2⟩, ⟨3, 3, 1, 50, 1⟩]
        ⟨2, 2, 1, 100, 2⟩ = 1 := by
  refine ⟨?_, ?_, ?_, by decide, by decide, by decide⟩
  · intro scores party limit
    rw [leaderboard, enumerate1_map_fst, enumerate1_length]
  · intro scores party limit
    rw [leaderboard, enumerate1_map_fst]
    exact List.nodup_range' _ _
  · intro scores party limit
    rw [leaderboard]
    exact enumerate1_pairwise _ _
      (List.Pairwise.sublist (List.take_sublist _ _) (sortScoresDesc_pairwise _)) 1
